import Mathlib

/-!
# Rocklab SaaS backend — shallow embedding

This file embeds the five callable operations of `functions/src/index.ts`
(`createOrg`, `createInvite`, `acceptInvite`, `submitOnboarding`,
`approveMember`) together with the Firestore document model they act on,
and proves properties of the membership / invitation lifecycle.

Modelling choices, each matching the source:
* A Firestore collection is an association list from document id to
  document. `setDoc` is `DocumentReference.set` (full replace),
  `eraseDoc` is `delete` (succeeds even when the document is absent),
  and `update` semantics (fail with not-found when the document is
  absent, otherwise merge fields) are inlined at each call site.
* Document ids produced by `doc()` / `add()` and the commit-time value of
  `FieldValue.serverTimestamp()` are passed in as explicit parameters.
* A caller identity is `uid` plus the optional `token.email`.
* Each operation returns the resulting store together with either its
  result payload or the `HttpsError` code it throws; an error return
  carries the store exactly as the operation left it.
* The source performs its Firestore calls with separate sequential
  `await`s (no transaction or batch); the small-step machines below make
  each `await` one atomic step so that interleavings and crash points
  between the calls are expressible.
-/

namespace Rocklab

/-- A Firestore collection: association list from document id to document. -/
abbrev DocMap (V : Type) := List (String × V)

/-- Read a document by id (`DocumentReference.get`). -/
def getDoc {V : Type} : DocMap V → String → Option V
  | [], _ => none
  | (k2, v) :: rest, k => if k2 = k then some v else getDoc rest k

/-- Remove every binding of a document id (`DocumentReference.delete`;
a delete of an absent document succeeds as a no-op). -/
def eraseDoc {V : Type} : DocMap V → String → DocMap V
  | [], _ => []
  | (k2, v) :: rest, k =>
    if k2 = k then eraseDoc rest k else (k2, v) :: eraseDoc rest k

/-- Write a document, replacing any previous content
(`DocumentReference.set` without merge). -/
def setDoc {V : Type} (m : DocMap V) (k : String) (v : V) : DocMap V :=
  (k, v) :: eraseDoc m k

/-- Number of bindings a collection holds for a document id. -/
def countDoc {V : Type} : DocMap V → String → Nat
  | [], _ => 0
  | (k2, _) :: rest, k => (if k2 = k then 1 else 0) + countDoc rest k

/-- An `orgs/{orgId}` document as written by `createOrg`. -/
structure Organization where
  id : String
  name : String
  slug : String
  ownerId : String
  status : String
  createdAt : Nat
deriving DecidableEq, Repr

/-- An `orgMembers/{orgId_uid}` document.  `createOrg` and `acceptInvite`
write the first six fields; `submitOnboarding` and `approveMember` merge
in the optional profile / approval fields. -/
structure Membership where
  orgId : String
  uid : String
  email : String
  role : String
  status : String
  joinedAt : Nat
  fullName : Option String
  phone : Option String
  onboardedAt : Option Nat
  approvedAt : Option Nat
  approvedBy : Option String
deriving DecidableEq, Repr

/-- An `invites/{inviteId}` document as written by `createInvite`. -/
structure Invitation where
  orgId : String
  email : String
  role : String
  invitedBy : String
  status : String
  createdAt : Nat
deriving DecidableEq, Repr

/-- The caller identity delivered by the callable wrapper:
`request.auth.uid` and the optional `request.auth.token.email`. -/
structure Auth where
  uid : String
  email : Option String
deriving DecidableEq, Repr

/-- The three collections the five operations touch. -/
structure Store where
  orgs : DocMap Organization
  orgMembers : DocMap Membership
  invites : DocMap Invitation
deriving DecidableEq, Repr

/-- The store before any operation has run. -/
def Store.empty : Store := { orgs := [], orgMembers := [], invites := [] }

/-- The `HttpsError` codes the five operations throw. -/
inductive Err where
  | unauthenticated
  | invalidArgument
  | permissionDenied
  | notFound
deriving DecidableEq, Repr

/-- The `role` field of the `CreateInviteData` interface:
the TypeScript union type `'admin' | 'staff'`. -/
inductive InviteRole where
  | admin
  | staff
deriving DecidableEq, Repr

/-- The string value the invite role union carries. -/
def InviteRole.toStr : InviteRole → String
  | .admin => "admin"
  | .staff => "staff"

/-- Payload of `createOrg` (`CreateOrgData`). -/
structure CreateOrgData where
  name : String
  slug : String
deriving DecidableEq, Repr

/-- Payload of `createInvite` (`CreateInviteData`). -/
structure CreateInviteData where
  orgId : String
  email : String
  role : InviteRole
deriving DecidableEq, Repr

/-- Payload of `acceptInvite` (`AcceptInviteData`). -/
structure AcceptInviteData where
  inviteId : String
deriving DecidableEq, Repr

/-- Payload of `submitOnboarding` (`OnboardingData`). -/
structure OnboardingData where
  orgId : String
  fullName : String
  phone : String
deriving DecidableEq, Repr

/-- Payload of `approveMember` (`ApproveMemberData`). -/
structure ApproveMemberData where
  orgId : String
  memberId : String
deriving DecidableEq, Repr

/-- The document id template of the `orgMembers` collection. -/
def memberKey (orgId uid : String) : String := orgId ++ "_" ++ uid

/-- The Organization document `createOrg` writes at its first `await`. -/
def mkOrganization (a : Auth) (d : CreateOrgData) (newOrgId : String)
    (now : Nat) : Organization :=
  { id := newOrgId
    name := d.name
    slug := d.slug
    ownerId := a.uid
    status := "active"
    createdAt := now }

/-- The owner Membership document `createOrg` writes at its second
`await` (its `email` field is `request.auth.token.email || ""`). -/
def mkOwnerMembership (a : Auth) (newOrgId : String) (now : Nat) :
    Membership :=
  { orgId := newOrgId
    uid := a.uid
    email := a.email.getD ""
    role := "owner"
    status := "active"
    joinedAt := now
    fullName := none
    phone := none
    onboardedAt := none
    approvedAt := none
    approvedBy := none }

/-- First `await` of `createOrg`: write the Organization document. -/
def createOrgWrite1 (a : Auth) (d : CreateOrgData) (newOrgId : String)
    (now : Nat) (s : Store) : Store :=
  { s with orgs := setDoc s.orgs newOrgId (mkOrganization a d newOrgId now) }

/-- Second `await` of `createOrg`: write the owner Membership document. -/
def createOrgWrite2 (a : Auth) (newOrgId : String) (now : Nat)
    (s : Store) : Store :=
  let members := setDoc s.orgMembers (memberKey newOrgId a.uid)
    (mkOwnerMembership a newOrgId now)
  { s with orgMembers := members }

/-- `createOrg`: auth check, argument check, then the two writes in
sequence (the source issues them as two independent `await ... .set`
calls, not as a transaction or batch). -/
def createOrg (auth : Option Auth) (d : CreateOrgData) (newOrgId : String)
    (now : Nat) (s : Store) : Store × Except Err String :=
  match auth with
  | none => (s, .error .unauthenticated)
  | some a =>
    if d.name = "" ∨ d.slug = "" then
      (s, .error .invalidArgument)
    else
      (createOrgWrite2 a newOrgId now (createOrgWrite1 a d newOrgId now s),
        .ok newOrgId)

/-- The stores visible at each `await` boundary of a `createOrg` call
that passed its auth and argument checks: before any write, after the
Organization write, after the Membership write.  A crash or a concurrent
read can observe any element. -/
def createOrgMidStores (a : Auth) (d : CreateOrgData) (newOrgId : String)
    (now : Nat) (s : Store) : List Store :=
  [s, createOrgWrite1 a d newOrgId now s,
    createOrgWrite2 a newOrgId now (createOrgWrite1 a d newOrgId now s)]

/-- The Invitation document `createInvite` adds. -/
def mkInvitation (a : Auth) (d : CreateInviteData) (now : Nat) :
    Invitation :=
  { orgId := d.orgId
    email := d.email
    role := d.role.toStr
    invitedBy := a.uid
    status := "pending"
    createdAt := now }

/-- `createInvite`: auth check, then the requester's Membership is read
and must exist with role `owner` or `admin`, then one `add` into
`invites` with a fresh id. -/
def createInvite (auth : Option Auth) (d : CreateInviteData)
    (newInviteId : String) (now : Nat) (s : Store) :
    Store × Except Err String :=
  match auth with
  | none => (s, .error .unauthenticated)
  | some a =>
    match getDoc s.orgMembers (memberKey d.orgId a.uid) with
    | none => (s, .error .permissionDenied)
    | some m =>
      if m.role = "owner" ∨ m.role = "admin" then
        let invites := setDoc s.invites newInviteId (mkInvitation a d now)
        ({ s with invites := invites }, .ok newInviteId)
      else
        (s, .error .permissionDenied)

/-- The Membership document `acceptInvite` writes with
`DocumentReference.set`, replacing any previous document at the key. -/
def mkAcceptedMembership (inv : Invitation) (a : Auth) (now : Nat) :
    Membership :=
  { orgId := inv.orgId
    uid := a.uid
    email := a.email.getD ""
    role := inv.role
    status := "pending_onboarding"
    joinedAt := now
    fullName := none
    phone := none
    onboardedAt := none
    approvedAt := none
    approvedBy := none }

/-- Second `await` of a successful `acceptInvite`: write the Member
record. -/
def acceptWriteMember (inv : Invitation) (a : Auth) (now : Nat)
    (s : Store) : Store :=
  let members := setDoc s.orgMembers (memberKey inv.orgId a.uid)
    (mkAcceptedMembership inv a now)
  { s with orgMembers := members }

/-- Third `await` of a successful `acceptInvite`: delete the invite. -/
def acceptDeleteInvite (inviteId : String) (s : Store) : Store :=
  { s with invites := eraseDoc s.invites inviteId }

/-- `acceptInvite`: auth check, fetch the invite (not-found when
absent), compare the caller's token email with the invite's email
(`inviteData?.email !== email`), then write the Member record and delete
the invite — again two independent sequential `await`s. -/
def acceptInvite (auth : Option Auth) (d : AcceptInviteData) (now : Nat)
    (s : Store) : Store × Except Err String :=
  match auth with
  | none => (s, .error .unauthenticated)
  | some a =>
    match getDoc s.invites d.inviteId with
    | none => (s, .error .notFound)
    | some inv =>
      if a.email ≠ some inv.email then
        (s, .error .permissionDenied)
      else
        (acceptDeleteInvite d.inviteId (acceptWriteMember inv a now s),
          .ok inv.orgId)

/-- `submitOnboarding`: auth check, read the caller's Membership
(permission-denied when absent), then `update` merges the profile
fields and forces `status` to `active`. -/
def submitOnboarding (auth : Option Auth) (d : OnboardingData) (now : Nat)
    (s : Store) : Store × Except Err Unit :=
  match auth with
  | none => (s, .error .unauthenticated)
  | some a =>
    match getDoc s.orgMembers (memberKey d.orgId a.uid) with
    | none => (s, .error .permissionDenied)
    | some m =>
      let m2 : Membership :=
        { m with
          fullName := some d.fullName
          phone := some d.phone
          status := "active"
          onboardedAt := some now }
      let members := setDoc s.orgMembers (memberKey d.orgId a.uid) m2
      ({ s with orgMembers := members }, .ok ())

/-- `approveMember`: auth check, the requester's Membership must exist
with role `owner` or `admin`, then `update` on the target Membership —
a Firestore `update` fails with not-found when the document is absent,
and otherwise merges `status`, `approvedAt`, `approvedBy`. -/
def approveMember (auth : Option Auth) (d : ApproveMemberData) (now : Nat)
    (s : Store) : Store × Except Err Unit :=
  match auth with
  | none => (s, .error .unauthenticated)
  | some a =>
    match getDoc s.orgMembers (memberKey d.orgId a.uid) with
    | none => (s, .error .permissionDenied)
    | some m =>
      if m.role = "owner" ∨ m.role = "admin" then
        match getDoc s.orgMembers (memberKey d.orgId d.memberId) with
        | none => (s, .error .notFound)
        | some t =>
          let t2 : Membership :=
            { t with
              status := "active"
              approvedAt := some now
              approvedBy := some a.uid }
          let members := setDoc s.orgMembers (memberKey d.orgId d.memberId) t2
          ({ s with orgMembers := members }, .ok ())
      else
        (s, .error .permissionDenied)

/-! ## Small-step machine for concurrent `acceptInvite` calls

The source performs three store accesses, each behind its own `await`:
fetch the invite (with the pure existence and email checks that follow
it before the next `await`), write the Member record, delete the invite.
Each access is one atomic step; between steps other callers may run. -/

deriving instance DecidableEq for Except

/-- Program counter of one in-flight `acceptInvite` call. -/
inductive APC where
  | start
  | readDone
  | memberWritten
  | finished
deriving DecidableEq, Repr

/-- One in-flight `acceptInvite` call: its caller, its payload, its
program counter, the invite snapshot its first step read, and its
result once finished. -/
structure AThread where
  auth : Auth
  inviteId : String
  pc : APC
  snap : Option Invitation
  res : Option (Except Err String)
deriving DecidableEq, Repr

/-- An `acceptInvite` call that has not run yet. -/
def AThread.init (a : Auth) (inviteId : String) : AThread :=
  { auth := a
    inviteId := inviteId
    pc := .start
    snap := none
    res := none }

/-- One atomic step of an in-flight `acceptInvite` call: the fetch
(together with the pure not-found and email checks), the Member write,
or the invite delete.  A finished call does not move. -/
def acceptThreadStep (now : Nat) (s : Store) (t : AThread) :
    Store × AThread :=
  match t.pc with
  | .start =>
    match getDoc s.invites t.inviteId with
    | none =>
      (s, { t with pc := .finished, res := some (.error .notFound) })
    | some inv =>
      if t.auth.email ≠ some inv.email then
        (s, { t with
              pc := .finished
              res := some (.error .permissionDenied) })
      else
        (s, { t with pc := .readDone, snap := some inv })
  | .readDone =>
    match t.snap with
    | none => (s, t)
    | some inv =>
      (acceptWriteMember inv t.auth now s, { t with pc := .memberWritten })
  | .memberWritten =>
    match t.snap with
    | none => (s, t)
    | some inv =>
      (acceptDeleteInvite t.inviteId s,
        { t with pc := .finished, res := some (.ok inv.orgId) })
  | .finished => (s, t)

/-- Two concurrent `acceptInvite` calls over one shared store. -/
structure Sys2 where
  store : Store
  tA : AThread
  tB : AThread
deriving DecidableEq, Repr

/-- Let one of the two calls take its next atomic step
(`true` steps the first call, `false` the second). -/
def sys2Step (now : Nat) (pick : Bool) (c : Sys2) : Sys2 :=
  if pick then
    let r := acceptThreadStep now c.store c.tA
    { c with store := r.1, tA := r.2 }
  else
    let r := acceptThreadStep now c.store c.tB
    { c with store := r.1, tB := r.2 }

/-- Run a schedule: each list entry picks which call steps next. -/
def runSched (now : Nat) : List Bool → Sys2 → Sys2
  | [], c => c
  | pick :: rest, c => runSched now rest (sys2Step now pick c)

/-! ## Invariants and reachability -/

/-- The closed role enum of the data model. -/
def RoleOkMember (r : String) : Prop :=
  r = "owner" ∨ r = "admin" ∨ r = "staff"

/-- The roles an Invitation may carry. -/
def RoleOkInvite (r : String) : Prop :=
  r = "admin" ∨ r = "staff"

/-- Every stored Membership role is in the closed enum and every stored
Invitation role is `admin` or `staff`. -/
def RolesOk (s : Store) : Prop :=
  (∀ k m, getDoc s.orgMembers k = some m → RoleOkMember m.role) ∧
  (∀ k i, getDoc s.invites k = some i → RoleOkInvite i.role)

/-- The stores reachable from the empty store by completed runs of the
five public operations (failing runs return the store unchanged). -/
inductive Reachable : Store → Prop where
  | empty : Reachable Store.empty
  | stepCreateOrg (auth : Option Auth) (d : CreateOrgData)
      (newOrgId : String) (now : Nat) (s : Store) :
      Reachable s → Reachable (createOrg auth d newOrgId now s).1
  | stepCreateInvite (auth : Option Auth) (d : CreateInviteData)
      (newInviteId : String) (now : Nat) (s : Store) :
      Reachable s → Reachable (createInvite auth d newInviteId now s).1
  | stepAcceptInvite (auth : Option Auth) (d : AcceptInviteData)
      (now : Nat) (s : Store) :
      Reachable s → Reachable (acceptInvite auth d now s).1
  | stepSubmitOnboarding (auth : Option Auth) (d : OnboardingData)
      (now : Nat) (s : Store) :
      Reachable s → Reachable (submitOnboarding auth d now s).1
  | stepApproveMember (auth : Option Auth) (d : ApproveMemberData)
      (now : Nat) (s : Store) :
      Reachable s → Reachable (approveMember auth d now s).1

/-! ## Concrete documents and configurations used in the scenarios -/

/-- A pending staff invitation to org `o1` for `b@x.com`. -/
def demoInvite : Invitation :=
  { orgId := "o1"
    email := "b@x.com"
    role := "staff"
    invitedBy := "u1"
    status := "pending"
    createdAt := 0 }

/-- The invited caller: uid `u2`, verified email `b@x.com`. -/
def demoInvitee : Auth := { uid := "u2", email := some "b@x.com" }

/-- The founding caller: uid `u1`, verified email `a@x.com`. -/
def demoFounder : Auth := { uid := "u1", email := some "a@x.com" }

/-- The founding owner of org `o1`. -/
def demoOwnerMem : Membership :=
  { orgId := "o1"
    uid := "u1"
    email := "a@x.com"
    role := "owner"
    status := "active"
    joinedAt := 0
    fullName := none
    phone := none
    onboardedAt := none
    approvedAt := none
    approvedBy := none }

/-- A staff member of `o1` who has completed onboarding: already
`active`, no approval fields recorded. -/
def demoActiveStaff : Membership :=
  { orgId := "o1"
    uid := "u2"
    email := "b@x.com"
    role := "staff"
    status := "active"
    joinedAt := 1
    fullName := some "Bob"
    phone := some "555-1234"
    onboardedAt := some 2
    approvedAt := none
    approvedBy := none }

/-- A store holding only the pending invitation `i1`. -/
def demoStoreInvite : Store :=
  { orgs := [], orgMembers := [], invites := [("i1", demoInvite)] }

/-- Two concurrent `acceptInvite` calls by the invitee on `i1`. -/
def demoRace : Sys2 :=
  { store := demoStoreInvite
    tA := AThread.init demoInvitee "i1"
    tB := AThread.init demoInvitee "i1" }

/-- The interleaving in which both calls fetch the invite before either
deletes it: A fetch, B fetch, A write, A delete, B write, B delete. -/
def demoRaceSched : List Bool := [true, false, true, true, false, false]

/-- A store holding org `o1`'s owner and an already-active staff member. -/
def demoStoreApprove : Store :=
  { orgs := []
    orgMembers := [(memberKey "o1" "u1", demoOwnerMem),
      (memberKey "o1" "u2", demoActiveStaff)]
    invites := [] }

/-- A store holding only org `o1`'s founding owner. -/
def demoStoreOwnerOnly : Store :=
  { orgs := []
    orgMembers := [(memberKey "o1" "u1", demoOwnerMem)]
    invites := [] }

/-- User `u2` as an active owner of org `o1`. -/
def demoOwnerMemU2 : Membership :=
  { orgId := "o1"
    uid := "u2"
    email := "b@x.com"
    role := "owner"
    status := "active"
    joinedAt := 0
    fullName := none
    phone := none
    onboardedAt := none
    approvedAt := none
    approvedBy := none }

/-- A store where `u2` already owns org `o1` while the pending staff
invitation `i1` addressed to `u2`'s email is still open. -/
def demoStoreOwnerAndInvite : Store :=
  { orgs := []
    orgMembers := [(memberKey "o1" "u2", demoOwnerMemU2)]
    invites := [("i1", demoInvite)] }

/-! ## Lemmas about the collection operations -/

theorem getDoc_setDoc_self {V : Type} (m : DocMap V) (k : String) (v : V) :
    getDoc (setDoc m k v) k = some v := by
  simp [setDoc, getDoc]

theorem getDoc_eraseDoc_self {V : Type} (m : DocMap V) (k : String) :
    getDoc (eraseDoc m k) k = none := by
  induction m with
  | nil => rfl
  | cons p rest ih =>
    obtain ⟨k2, v⟩ := p
    by_cases h : k2 = k
    · simpa [eraseDoc, h] using ih
    · simp [eraseDoc, h, getDoc, ih]

theorem getDoc_eraseDoc_ne {V : Type} (m : DocMap V) (k k2 : String)
    (h : k2 ≠ k) : getDoc (eraseDoc m k) k2 = getDoc m k2 := by
  induction m with
  | nil => rfl
  | cons p rest ih =>
    obtain ⟨k3, v⟩ := p
    by_cases h3 : k3 = k
    · subst h3
      simp [eraseDoc, getDoc, Ne.symm h, ih]
    · simp only [eraseDoc, if_neg h3, getDoc]
      by_cases h4 : k3 = k2 <;> simp [h4, ih]

theorem getDoc_setDoc_ne {V : Type} (m : DocMap V) (k k2 : String) (v : V)
    (h : k2 ≠ k) : getDoc (setDoc m k v) k2 = getDoc m k2 := by
  simp [setDoc, getDoc, Ne.symm h, getDoc_eraseDoc_ne m k k2 h]

theorem getDoc_eraseDoc_some {V : Type} (m : DocMap V) (k k2 : String)
    (w : V) (h : getDoc (eraseDoc m k) k2 = some w) :
    getDoc m k2 = some w := by
  by_cases hk : k2 = k
  · subst hk
    rw [getDoc_eraseDoc_self] at h
    exact absurd h (by simp)
  · rwa [getDoc_eraseDoc_ne m k k2 hk] at h

theorem getDoc_setDoc_cases {V : Type} (m : DocMap V) (k k2 : String)
    (v w : V) (h : getDoc (setDoc m k v) k2 = some w) :
    (k2 = k ∧ w = v) ∨ getDoc m k2 = some w := by
  by_cases hk : k2 = k
  · subst hk
    rw [getDoc_setDoc_self] at h
    exact Or.inl ⟨rfl, (Option.some_inj.mp h).symm⟩
  · rw [getDoc_setDoc_ne m k k2 v hk] at h
    exact Or.inr h

theorem countDoc_eraseDoc_self {V : Type} (m : DocMap V) (k : String) :
    countDoc (eraseDoc m k) k = 0 := by
  induction m with
  | nil => rfl
  | cons p rest ih =>
    obtain ⟨k2, v⟩ := p
    by_cases h : k2 = k
    · simpa [eraseDoc, h] using ih
    · simp [eraseDoc, h, countDoc, ih]

theorem countDoc_setDoc_self {V : Type} (m : DocMap V) (k : String)
    (v : V) : countDoc (setDoc m k v) k = 1 := by
  simp [setDoc, countDoc, countDoc_eraseDoc_self]

theorem forall_some_setDoc {V : Type} (P : V → Prop) (m : DocMap V)
    (k : String) (v : V)
    (hm : ∀ k2 w, getDoc m k2 = some w → P w) (hv : P v) :
    ∀ k2 w, getDoc (setDoc m k v) k2 = some w → P w := by
  intro k2 w h
  rcases getDoc_setDoc_cases m k k2 v w h with ⟨_, rfl⟩ | h2
  · exact hv
  · exact hm _ _ h2

theorem forall_some_eraseDoc {V : Type} (P : V → Prop) (m : DocMap V)
    (k : String) (hm : ∀ k2 w, getDoc m k2 = some w → P w) :
    ∀ k2 w, getDoc (eraseDoc m k) k2 = some w → P w := by
  intro k2 w h
  exact hm _ _ (getDoc_eraseDoc_some m k k2 w h)

/-! ## Claim theorems -/

/-- C1: the claim fails on the code.  `acceptInvite` issues its fetch,
Member write and invite delete as three separate atomic accesses with no
transaction, so under the interleaving in which both concurrent calls on
invite `i1` fetch before either deletes, both calls return success
(neither loser receives `NotFound`), and the state right after one
call's Member write and before its invite delete has the invitation
still present and already converted into a Membership. -/
theorem acceptInvite_race_not_exactly_once :
    (runSched 7 demoRaceSched demoRace).tA.res = some (.ok "o1") ∧
    (runSched 7 demoRaceSched demoRace).tB.res = some (.ok "o1") ∧
    getDoc (runSched 7 [true, true] demoRace).store.invites "i1" =
      some demoInvite ∧
    getDoc (runSched 7 [true, true] demoRace).store.orgMembers
      (memberKey "o1" "u2") =
      some (mkAcceptedMembership demoInvite demoInvitee 7) := by
  refine ⟨?_, ?_, ?_, ?_⟩ <;> rfl

/-- C2: the claim fails on the code.  `createOrg` issues its two writes
as two separate sequential `set` calls with no transaction or batch, so
the state between them — reachable by a crash after the first `await`
or observable by a concurrent reader — holds the Organization document
without its owner Membership. -/
theorem createOrg_not_atomic :
    createOrgWrite1 demoFounder ⟨"Acme", "acme"⟩ "o1" 0 Store.empty ∈
      createOrgMidStores demoFounder ⟨"Acme", "acme"⟩ "o1" 0 Store.empty ∧
    (getDoc (createOrgWrite1 demoFounder ⟨"Acme", "acme"⟩ "o1" 0
      Store.empty).orgs "o1").isSome = true ∧
    getDoc (createOrgWrite1 demoFounder ⟨"Acme", "acme"⟩ "o1" 0
      Store.empty).orgMembers (memberKey "o1" "u1") = none := by
  refine ⟨?_, ?_, ?_⟩
  · simp [createOrgMidStores]
  · rfl
  · rfl

/-- C3: in every store reachable through completed runs of the five
public operations, every stored Membership role is one of `owner`,
`admin`, `staff`, and every stored Invitation role is `admin` or
`staff` (so `acceptInvite` only ever copies such a role into the
Membership it creates). -/
theorem reachable_roles_closed (s : Store) (h : Reachable s) :
    RolesOk s := by
  induction h with
  | empty =>
    constructor
    · intro k m hm
      simp [Store.empty, getDoc] at hm
    · intro k i hi
      simp [Store.empty, getDoc] at hi
  | stepCreateOrg auth d newOrgId now s hs ih =>
    cases auth with
    | none => exact ih
    | some a =>
      by_cases hd : d.name = "" ∨ d.slug = ""
      · simpa [createOrg, hd] using ih
      · simp only [createOrg, if_neg hd]
        refine ⟨?_, ?_⟩
        · simp only [createOrgWrite2, createOrgWrite1]
          exact forall_some_setDoc _ _ _ _ ih.1 (Or.inl rfl)
        · simpa only [createOrgWrite2, createOrgWrite1] using ih.2
  | stepCreateInvite auth d newInviteId now s hs ih =>
    cases auth with
    | none => exact ih
    | some a =>
      cases hm : getDoc s.orgMembers (memberKey d.orgId a.uid) with
      | none => simpa [createInvite, hm] using ih
      | some m =>
        by_cases hr : m.role = "owner" ∨ m.role = "admin"
        · simp only [createInvite, hm, if_pos hr]
          refine ⟨ih.1, ?_⟩
          refine forall_some_setDoc _ _ _ _ ih.2 ?_
          cases hrole : d.role <;>
            simp [mkInvitation, InviteRole.toStr, RoleOkInvite, hrole]
        · simpa [createInvite, hm, hr] using ih
  | stepAcceptInvite auth d now s hs ih =>
    cases auth with
    | none => exact ih
    | some a =>
      cases hi : getDoc s.invites d.inviteId with
      | none => simpa [acceptInvite, hi] using ih
      | some inv =>
        by_cases he : a.email = some inv.email
        · simp only [acceptInvite, hi, he, ne_eq, not_true_eq_false,
            if_false]
          refine ⟨?_, ?_⟩
          · simp only [acceptDeleteInvite, acceptWriteMember]
            refine forall_some_setDoc _ _ _ _ ih.1 ?_
            have hrole := ih.2 _ _ hi
            rcases hrole with h1 | h1
            · exact Or.inr (Or.inl h1)
            · exact Or.inr (Or.inr h1)
          · simp only [acceptDeleteInvite, acceptWriteMember]
            exact forall_some_eraseDoc _ _ _ ih.2
        · simpa [acceptInvite, hi, he] using ih
  | stepSubmitOnboarding auth d now s hs ih =>
    cases auth with
    | none => exact ih
    | some a =>
      cases hm : getDoc s.orgMembers (memberKey d.orgId a.uid) with
      | none => simpa [submitOnboarding, hm] using ih
      | some m =>
        simp only [submitOnboarding, hm]
        refine ⟨?_, ih.2⟩
        exact forall_some_setDoc _ _ _ _ ih.1
          (show RoleOkMember m.role from ih.1 _ _ hm)
  | stepApproveMember auth d now s hs ih =>
    cases auth with
    | none => exact ih
    | some a =>
      cases hm : getDoc s.orgMembers (memberKey d.orgId a.uid) with
      | none => simpa [approveMember, hm] using ih
      | some m =>
        by_cases hr : m.role = "owner" ∨ m.role = "admin"
        · cases ht : getDoc s.orgMembers (memberKey d.orgId d.memberId) with
          | none => simpa [approveMember, hm, hr, ht] using ih
          | some t =>
            simp only [approveMember, hm, if_pos hr, ht]
            refine ⟨?_, ih.2⟩
            exact forall_some_setDoc _ _ _ _ ih.1
              (show RoleOkMember t.role from ih.1 _ _ ht)
        · simpa [approveMember, hm, hr] using ih

/-- Witness for C3: the invariant at a concrete reachable store, one
completed `createOrg` away from the empty store. -/
theorem reachable_roles_closed_witness :
    RolesOk (createOrg (some demoFounder) ⟨"Acme", "acme"⟩ "o1" 0
      Store.empty).1 :=
  reachable_roles_closed _
    (Reachable.stepCreateOrg (some demoFounder) ⟨"Acme", "acme"⟩ "o1" 0
      Store.empty Reachable.empty)

/-- C4: `approveMember` uses a conditional update, never an upsert: for
a caller authorized as `owner` or `admin`, when no Membership document
exists at `(orgId, memberUid)` the update fails with not-found and the
store is returned unchanged, so no Membership document is created. -/
theorem approveMember_no_upsert (s : Store) (a : Auth)
    (orgId memberUid : String) (now : Nat) (req : Membership)
    (hreq : getDoc s.orgMembers (memberKey orgId a.uid) = some req)
    (hrole : req.role = "owner" ∨ req.role = "admin")
    (habsent : getDoc s.orgMembers (memberKey orgId memberUid) = none) :
    approveMember (some a) ⟨orgId, memberUid⟩ now s =
      (s, .error .notFound) := by
  simp [approveMember, hreq, hrole, habsent]

/-- Witness for C4: the owner of `o1` approving the absent member `zz`
fails with not-found and leaves the store unchanged. -/
theorem approveMember_no_upsert_witness :
    approveMember (some demoFounder) ⟨"o1", "zz"⟩ 5 demoStoreOwnerOnly =
      (demoStoreOwnerOnly, .error .notFound) :=
  approveMember_no_upsert demoStoreOwnerOnly demoFounder "o1" "zz" 5
    demoOwnerMem (by decide) (Or.inl rfl) (by decide)

/-- C5: for every authenticated caller and non-empty name and slug,
`createOrg` succeeds, the Organization written under the generated id
has `ownerId` equal to the caller's uid and status `active`, exactly one
Membership exists at the `(orgId, callerUid)` key and it has role
`owner`, status `active` and the same generated `orgId`, which is also
the value returned. -/
theorem createOrg_success (a : Auth) (d : CreateOrgData)
    (newOrgId : String) (now : Nat) (s : Store)
    (hname : d.name ≠ "") (hslug : d.slug ≠ "") :
    (createOrg (some a) d newOrgId now s).2 = .ok newOrgId ∧
    (∃ org, getDoc (createOrg (some a) d newOrgId now s).1.orgs newOrgId =
        some org ∧
      org.id = newOrgId ∧ org.ownerId = a.uid ∧ org.status = "active") ∧
    (∃ mem, getDoc (createOrg (some a) d newOrgId now s).1.orgMembers
        (memberKey newOrgId a.uid) = some mem ∧
      mem.orgId = newOrgId ∧ mem.uid = a.uid ∧ mem.role = "owner" ∧
      mem.status = "active") ∧
    countDoc (createOrg (some a) d newOrgId now s).1.orgMembers
      (memberKey newOrgId a.uid) = 1 := by
  have hd : ¬(d.name = "" ∨ d.slug = "") := by
    rintro (h | h)
    · exact hname h
    · exact hslug h
  simp only [createOrg, if_neg hd, createOrgWrite2, createOrgWrite1]
  refine ⟨by trivial, ⟨mkOrganization a d newOrgId now, ?_, rfl, rfl, rfl⟩,
    ⟨mkOwnerMembership a newOrgId now, ?_, rfl, rfl, rfl, rfl⟩, ?_⟩
  · exact getDoc_setDoc_self _ _ _
  · exact getDoc_setDoc_self _ _ _
  · exact countDoc_setDoc_self _ _ _

/-- Witness for C5: the founding call on the empty store. -/
theorem createOrg_success_witness :
    (createOrg (some demoFounder) ⟨"Acme", "acme"⟩ "o1" 0
      Store.empty).2 = .ok "o1" ∧
    (∃ org, getDoc (createOrg (some demoFounder) ⟨"Acme", "acme"⟩ "o1" 0
        Store.empty).1.orgs "o1" = some org ∧
      org.id = "o1" ∧ org.ownerId = demoFounder.uid ∧
      org.status = "active") ∧
    (∃ mem, getDoc (createOrg (some demoFounder) ⟨"Acme", "acme"⟩ "o1" 0
        Store.empty).1.orgMembers (memberKey "o1" demoFounder.uid) =
        some mem ∧
      mem.orgId = "o1" ∧ mem.uid = demoFounder.uid ∧ mem.role = "owner" ∧
      mem.status = "active") ∧
    countDoc (createOrg (some demoFounder) ⟨"Acme", "acme"⟩ "o1" 0
      Store.empty).1.orgMembers (memberKey "o1" demoFounder.uid) = 1 :=
  createOrg_success demoFounder ⟨"Acme", "acme"⟩ "o1" 0 Store.empty
    (by decide) (by decide)

/-- C6: when the caller's token email differs from an existing
invitation's email, `acceptInvite` fails with permission-denied and
returns the store unchanged: the Invitation is still present and no
Membership has been created. -/
theorem acceptInvite_email_mismatch (s : Store) (a : Auth)
    (inviteId : String) (inv : Invitation) (now : Nat)
    (hinv : getDoc s.invites inviteId = some inv)
    (hne : a.email ≠ some inv.email) :
    acceptInvite (some a) ⟨inviteId⟩ now s =
      (s, .error .permissionDenied) ∧
    getDoc (acceptInvite (some a) ⟨inviteId⟩ now s).1.invites inviteId =
      some inv := by
  have h1 : acceptInvite (some a) ⟨inviteId⟩ now s =
      (s, .error .permissionDenied) := by
    simp [acceptInvite, hinv, hne]
  refine ⟨h1, ?_⟩
  rw [h1]
  exact hinv

/-- Witness for C6: a caller with verified email `c@y.com` cannot accept
the invitation addressed to `b@x.com`; the invite survives. -/
theorem acceptInvite_email_mismatch_witness :
    acceptInvite (some ⟨"u3", some "c@y.com"⟩) ⟨"i1"⟩ 4 demoStoreInvite =
      (demoStoreInvite, .error .permissionDenied) ∧
    getDoc (acceptInvite (some ⟨"u3", some "c@y.com"⟩) ⟨"i1"⟩ 4
      demoStoreInvite).1.invites "i1" = some demoInvite :=
  acceptInvite_email_mismatch demoStoreInvite ⟨"u3", some "c@y.com"⟩
    "i1" demoInvite 4 (by decide) (by decide)

/-- C7: `submitOnboarding` by a caller with no Membership at
`(orgId, callerUid)` fails with permission-denied and returns the store
unchanged — in particular it never creates a Membership document. -/
theorem submitOnboarding_requires_membership (s : Store) (a : Auth)
    (orgId fullName phone : String) (now : Nat)
    (habsent : getDoc s.orgMembers (memberKey orgId a.uid) = none) :
    submitOnboarding (some a) ⟨orgId, fullName, phone⟩ now s =
      (s, .error .permissionDenied) := by
  simp [submitOnboarding, habsent]

/-- Witness for C7: `u2` has no Membership in `o1`, so onboarding fails
and writes nothing. -/
theorem submitOnboarding_requires_membership_witness :
    submitOnboarding (some demoInvitee) ⟨"o1", "Bob", "555-1234"⟩ 3
      demoStoreOwnerOnly = (demoStoreOwnerOnly, .error .permissionDenied) :=
  submitOnboarding_requires_membership demoStoreOwnerOnly demoInvitee
    "o1" "Bob" "555-1234" 3 (by decide)

/-- C8: `createInvite` fails with permission-denied when the caller has
no Membership in the target org or when that Membership's role is
`staff`, returning the store unchanged (the permission check writes
nothing); when the caller's role is `owner` or `admin` it succeeds,
stores a new Invitation with status `pending` under the generated id,
returns that id, and leaves the other collections untouched. -/
theorem createInvite_authorization (s : Store) (a : Auth)
    (d : CreateInviteData) (newInviteId : String) (now : Nat) :
    (getDoc s.orgMembers (memberKey d.orgId a.uid) = none →
      createInvite (some a) d newInviteId now s =
        (s, .error .permissionDenied)) ∧
    (∀ m, getDoc s.orgMembers (memberKey d.orgId a.uid) = some m →
      m.role = "staff" →
      createInvite (some a) d newInviteId now s =
        (s, .error .permissionDenied)) ∧
    (∀ m, getDoc s.orgMembers (memberKey d.orgId a.uid) = some m →
      (m.role = "owner" ∨ m.role = "admin") →
      (createInvite (some a) d newInviteId now s).2 = .ok newInviteId ∧
      getDoc (createInvite (some a) d newInviteId now s).1.invites
        newInviteId = some (mkInvitation a d now) ∧
      (mkInvitation a d now).status = "pending" ∧
      (createInvite (some a) d newInviteId now s).1.orgMembers =
        s.orgMembers ∧
      (createInvite (some a) d newInviteId now s).1.orgs = s.orgs) := by
  refine ⟨?_, ?_, ?_⟩
  · intro h
    simp [createInvite, h]
  · intro m hm hstaff
    simp [createInvite, hm, hstaff]
  · intro m hm hr
    simp only [createInvite, hm, if_pos hr]
    exact ⟨by trivial, getDoc_setDoc_self _ _ _, by trivial, by trivial,
      by trivial⟩

/-- Witness for C8: an outsider is denied on the empty store, the
active staff member `u2` of `o1` is denied, and the owner `u1` of `o1`
succeeds with a pending invitation. -/
theorem createInvite_authorization_witness :
    createInvite (some demoInvitee) ⟨"o1", "c@y.com", .staff⟩ "i9" 3
      Store.empty = (Store.empty, .error .permissionDenied) ∧
    createInvite (some demoInvitee) ⟨"o1", "c@y.com", .staff⟩ "i9" 3
      demoStoreApprove = (demoStoreApprove, .error .permissionDenied) ∧
    (createInvite (some demoFounder) ⟨"o1", "c@y.com", .staff⟩ "i9" 3
      demoStoreOwnerOnly).2 = .ok "i9" ∧
    getDoc (createInvite (some demoFounder) ⟨"o1", "c@y.com", .staff⟩
      "i9" 3 demoStoreOwnerOnly).1.invites "i9" =
      some (mkInvitation demoFounder ⟨"o1", "c@y.com", .staff⟩ 3) := by
  refine ⟨?_, ?_, ?_, ?_⟩
  · exact (createInvite_authorization Store.empty demoInvitee
      ⟨"o1", "c@y.com", .staff⟩ "i9" 3).1 (by decide)
  · exact (createInvite_authorization demoStoreApprove demoInvitee
      ⟨"o1", "c@y.com", .staff⟩ "i9" 3).2.1 demoActiveStaff
      (by decide) (by decide)
  · exact ((createInvite_authorization demoStoreOwnerOnly demoFounder
      ⟨"o1", "c@y.com", .staff⟩ "i9" 3).2.2 demoOwnerMem
      (by decide) (Or.inl (by decide))).1
  · exact ((createInvite_authorization demoStoreOwnerOnly demoFounder
      ⟨"o1", "c@y.com", .staff⟩ "i9" 3).2.2 demoOwnerMem
      (by decide) (Or.inl (by decide))).2.1

/-- C9 counterexample: the staff member `u2` of `o1` is already
`active` with no approval fields recorded; after the owner `u1` runs
`approveMember`, the stored document differs from the old one — the
update overwrote `approvedAt` and `approvedBy` — so the operation is
not a no-op on an already-active Membership. -/
theorem approveMember_active_not_noop :
    demoActiveStaff.status = "active" ∧
    getDoc (approveMember (some demoFounder) ⟨"o1", "u2"⟩ 5
      demoStoreApprove).1.orgMembers (memberKey "o1" "u2") ≠
      some demoActiveStaff := by
  refine ⟨rfl, ?_⟩
  decide

/-- C9 as amended: for a Membership already `active`, `approveMember`
by an authorized caller succeeds and is idempotent on `status` — the
stored document keeps status `active` and every field other than
`approvedAt` and `approvedBy`, which are overwritten with the approval
time and the approver's uid. -/
theorem approveMember_active_keeps_status (s : Store) (a : Auth)
    (orgId memberUid : String) (now : Nat) (req t : Membership)
    (hreq : getDoc s.orgMembers (memberKey orgId a.uid) = some req)
    (hrole : req.role = "owner" ∨ req.role = "admin")
    (ht : getDoc s.orgMembers (memberKey orgId memberUid) = some t)
    (hactive : t.status = "active") :
    (approveMember (some a) ⟨orgId, memberUid⟩ now s).2 = .ok () ∧
    getDoc (approveMember (some a) ⟨orgId, memberUid⟩ now
        s).1.orgMembers (memberKey orgId memberUid) =
      some { t with
             status := "active"
             approvedAt := some now
             approvedBy := some a.uid } := by
  simp only [approveMember, hreq, if_pos hrole, ht]
  exact ⟨by trivial, getDoc_setDoc_self _ _ _⟩

/-- Witness for the amended C9: the owner `u1` approving the active
staff member `u2` of `o1`. -/
theorem approveMember_active_keeps_status_witness :
    (approveMember (some demoFounder) ⟨"o1", "u2"⟩ 5
      demoStoreApprove).2 = .ok () ∧
    getDoc (approveMember (some demoFounder) ⟨"o1", "u2"⟩ 5
        demoStoreApprove).1.orgMembers (memberKey "o1" "u2") =
      some { demoActiveStaff with
             status := "active"
             approvedAt := some 5
             approvedBy := some "u1" } :=
  approveMember_active_keeps_status demoStoreApprove demoFounder "o1"
    "u2" 5 demoOwnerMem demoActiveStaff (by decide) (Or.inl (by decide))
    (by decide) (by decide)

/-- C10: a successful `acceptInvite` writes the Member record with a
plain `set`, so a caller who already holds a Membership in the
invitation's org has that whole document replaced by the fresh record
carrying the invitation's role and status `pending_onboarding`, with
every optional profile field cleared, independently of the prior
document's content. -/
theorem acceptInvite_replaces_membership (s : Store) (a : Auth)
    (inviteId : String) (inv : Invitation) (now : Nat)
    (prior : Membership)
    (hinv : getDoc s.invites inviteId = some inv)
    (hemail : a.email = some inv.email)
    (hprior : getDoc s.orgMembers (memberKey inv.orgId a.uid) =
      some prior) :
    (acceptInvite (some a) ⟨inviteId⟩ now s).2 = .ok inv.orgId ∧
    getDoc (acceptInvite (some a) ⟨inviteId⟩ now s).1.orgMembers
      (memberKey inv.orgId a.uid) = some (mkAcceptedMembership inv a now) ∧
    (mkAcceptedMembership inv a now).role = inv.role ∧
    (mkAcceptedMembership inv a now).status = "pending_onboarding" ∧
    (mkAcceptedMembership inv a now).fullName = none ∧
    (mkAcceptedMembership inv a now).phone = none ∧
    (mkAcceptedMembership inv a now).onboardedAt = none ∧
    (mkAcceptedMembership inv a now).approvedAt = none ∧
    (mkAcceptedMembership inv a now).approvedBy = none := by
  simp only [acceptInvite, hinv, hemail, ne_eq, not_true_eq_false,
    if_false]
  refine ⟨by trivial, ?_, by trivial, by trivial, by trivial, by trivial,
    by trivial, by trivial, by trivial⟩
  simp only [acceptDeleteInvite, acceptWriteMember]
  exact getDoc_setDoc_self _ _ _

/-- Witness for C10: `u2`, an active owner of `o1`, accepts the staff
invitation `i1` to `o1` and the owner document is replaced by a staff
document in status `pending_onboarding`. -/
theorem acceptInvite_replaces_membership_witness :
    (acceptInvite (some demoInvitee) ⟨"i1"⟩ 7
      demoStoreOwnerAndInvite).2 = .ok "o1" ∧
    getDoc (acceptInvite (some demoInvitee) ⟨"i1"⟩ 7
      demoStoreOwnerAndInvite).1.orgMembers (memberKey "o1" "u2") =
      some (mkAcceptedMembership demoInvite demoInvitee 7) ∧
    (mkAcceptedMembership demoInvite demoInvitee 7).role = "staff" ∧
    (mkAcceptedMembership demoInvite demoInvitee 7).status =
      "pending_onboarding" := by
  have h := acceptInvite_replaces_membership demoStoreOwnerAndInvite
    demoInvitee "i1" demoInvite 7 demoOwnerMemU2 (by decide) (by decide)
    (by decide)
  exact ⟨h.1, h.2.1, h.2.2.1, h.2.2.2.1⟩

end Rocklab
